import Mathlib

/-!
Verification of the attendance reconciliation core of the
madwell-signin-streamlit repository (shallow embedding of `src/signin.py`,
whose `calculate_date_range`, `load_signin_data`, `get_pto_dates`,
`process_employee_signin` and `process_signin` form the core; `src/main.py`
is a near-identical earlier copy of the same logic).

Modelling conventions:

* Timestamps are minutes since 2024-01-01 00:00 (2024-01-01 is a Monday),
  as integers.  Python `datetime` subtraction, `weekday()`, `.replace(hour=1,
  minute=0, second=0, microsecond=0)` and `timedelta.days` are all exact
  linear/floor arithmetic on this representation: Python floor division is
  `Int.ediv` (the divisor is always positive here) and Python `%` is
  `Int.emod`.
* `weekdayOf d` is the Python `date.weekday()` of day number `d`:
  Monday = 0 .. Sunday = 6 (day 0 = 2024-01-01 is a Monday, so it is
  simply `d % 7`).
* PTO `leaveDates` are `YYYY-MM-DD` strings in the source, parsed with
  `strptime` and `.replace(hour=1, ...)`; the parse is injective on valid
  strings, so we embed each leave date directly as its day number.
* pandas `DataFrame`s of sign-in rows are embedded as `List SignInRow`;
  `pd.date_range(start, end)` (daily frequency) as an explicit list of
  timestamps.
-/

namespace Madwell

/-- Python `//` on our minute timestamps: `dayOf t` is the day number of the
calendar date holding timestamp `t` (floor division, divisor positive). -/
def dayOf (t : Int) : Int := t / 1440

/-- Python `date.weekday()` of day number `d`: Monday = 0 .. Sunday = 6. -/
def weekdayOf (d : Int) : Int := d % 7

/-- Python `strftime("%a")` of the date with day number `d`. -/
def dayAbbr (d : Int) : String :=
  if weekdayOf d = 0 then "Mon"
  else if weekdayOf d = 1 then "Tue"
  else if weekdayOf d = 2 then "Wed"
  else if weekdayOf d = 3 then "Thu"
  else if weekdayOf d = 4 then "Fri"
  else if weekdayOf d = 5 then "Sat"
  else "Sun"

/-- Python `.replace(hour=1, minute=0, second=0, microsecond=0)` on a
timestamp: same calendar date, time-of-day 01:00. -/
def replaceHour1 (t : Int) : Int := dayOf t * 1440 + 60

/-- One row of the uploaded sign-in CSV: the `Name` column and the parsed
`In time` column (`src/signin.py`, `combine_csv_files` output as used by the
core). -/
structure SignInRow where
  name : String
  inTime : Int
deriving DecidableEq, Repr

/-- One entry of the PTO calendar (`requestList` element): the employee name
and the parsed `leaveDates` (day numbers).  The remaining JSON fields are
never read by the core. -/
structure PTOData where
  name : String
  leaveDates : List Int
deriving DecidableEq, Repr

/-- One roster row (`employees_df`): the columns read by
`process_employee_signin`.  `requiredDays` is `int(row["REQUIRED_DAYS"])`. -/
structure RosterRow where
  fullName : String
  jwName : String
  department : String
  office : String
  requiredDays : Int
deriving DecidableEq, Repr

/-- `min` of a nonempty list presented as head and tail (pandas
`Series.min`). -/
def listMin (a : Int) (l : List Int) : Int := l.foldl min a

/-- `max` of a nonempty list presented as head and tail (pandas
`Series.max`). -/
def listMax (a : Int) (l : List Int) : Int := l.foldl max a

/-- Result record of `calculate_date_range` (`src/signin.py` lines
237-265): the returned 5-tuple. -/
structure DateRange where
  start_date : Int
  end_date : Int
  more_than_7_days : Bool
  min_date : Int
  max_date : Int
deriving DecidableEq, Repr

/-- `calculate_date_range` (`src/signin.py` lines 237-265) on the list of
parsed `In time` timestamps.  `(max_date - min_date).days` is floor division
of the minute difference by 1440.  The source computes
`start_date = (min_date - timedelta(days=min_date.weekday() + 1)).replace(hour=1, ...)`
and then adds 7 days when `min_date.weekday() == 6`.
The source is only called on a nonempty DataFrame (`main` guards on
`signin_df.empty`); on `[]` this embedding uses 0 as the missing min/max. -/
def calculate_date_range (ts : List Int) : DateRange :=
  let min_date := listMin (ts.headD 0) ts.tail
  let max_date := listMax (ts.headD 0) ts.tail
  let more_than_7_days : Bool := decide (7 < (max_date - min_date) / 1440)
  let start0 := replaceHour1 (min_date - (weekdayOf (dayOf min_date) + 1) * 1440)
  let start_date := if weekdayOf (dayOf min_date) = 6 then start0 + 7 * 1440 else start0
  { start_date := start_date
    end_date := start_date + 6 * 1440
    more_than_7_days := more_than_7_days
    min_date := min_date
    max_date := max_date }

/-- `load_signin_data` (`src/signin.py` lines 269-299): combine the uploaded
rows, compute the date range, and `st.stop()` (here: `none`) when the batch
covers more than 7 days; otherwise return the rows and the week window. -/
def load_signin_data (rows : List SignInRow) :
    Option (List SignInRow × Int × Int) :=
  let r := calculate_date_range (rows.map (·.inTime))
  if r.more_than_7_days then none
  else some (rows, r.start_date, r.end_date)

/-- `pd.date_range(start, end)` with daily frequency: the timestamps
`start, start + 1 day, ...` up to `end` inclusive (here `end - start` is
always an exact multiple of one day). -/
def date_range (s e : Int) : List Int :=
  (List.range (((e - s) / 1440).toNat + 1)).map (fun (k : Nat) => s + 1440 * (k : Int))

/-- Inner loop of `get_pto_dates` (`src/signin.py` lines 344-352): walk one
record's `leaveDates` in order; parse each (`strptime` then
`.replace(hour=1, ...)`, i.e. `ld * 1440 + 60`), and keep it iff its weekday
is in `[1, 2, 3]` (Tue/Wed/Thu) and the parsed timestamp is a member of the
`date_range`. -/
def collectLeaveDates (dr : List Int) : List Int → List Int
  | [] => []
  | ld :: rest =>
      let leave_date := ld * 1440 + 60
      if (weekdayOf (dayOf leave_date) = 1 ∨ weekdayOf (dayOf leave_date) = 2 ∨
          weekdayOf (dayOf leave_date) = 3) ∧ leave_date ∈ dr then
        leave_date :: collectLeaveDates dr rest
      else collectLeaveDates dr rest

/-- `get_pto_dates` (`src/signin.py` lines 324-352): scan every calendar
entry in order; for entries whose `name` equals `pto_name` (case-sensitive
string equality), append the qualifying leave dates in order. -/
def get_pto_dates (pto_calendar : List PTOData) (pto_name : String)
    (dr : List Int) : List Int :=
  match pto_calendar with
  | [] => []
  | pto :: rest =>
      (if pto.name = pto_name then collectLeaveDates dr pto.leaveDates else []) ++
        get_pto_dates rest pto_name dr

/-- Python `day_order.index` for `day_order = ["Tue", "Wed", "Thu"]`.  The
source raises `ValueError` on any other label; it is only ever applied to
labels in `day_order`, where this embedding agrees (other labels get the
out-of-range index 3). -/
def dayOrderIndex (s : String) : Nat :=
  if s = "Tue" then 0 else if s = "Wed" then 1 else if s = "Thu" then 2 else 3

/-- Stable insertion of `a` into `l` by a `Nat`-valued key (helper for
`sortByKey`). -/
def insertByKey {α : Type} (key : α → Nat) (a : α) : List α → List α
  | [] => [a]
  | b :: l => if key a ≤ key b then a :: b :: l else b :: insertByKey key a l

/-- Python `sorted(l, key=key)`: stable sort by a `Nat`-valued key
(insertion sort; stability and the key function determine the result, so
this agrees with timsort). -/
def sortByKey {α : Type} (key : α → Nat) : List α → List α
  | [] => []
  | a :: l => insertByKey key a (sortByKey key l)

/-- The doubly-filtered sign-in rows of one employee (`src/signin.py` lines
383-386): rows whose `Name` equals the roster `FULL_NAME` and whose
`In time` falls on a Tue/Wed/Thu (by `strftime("%a")`). -/
def present_days (signin_df : List SignInRow) (name : String) : List SignInRow :=
  (signin_df.filter (fun r => decide (r.name = name))).filter
    (fun r => decide (dayAbbr (dayOf r.inTime) ∈ (["Tue", "Wed", "Thu"] : List String)))

/-- The emitted per-employee record (`SignInData` dict of
`process_employee_signin`).  Formatting-only string fields of the source are
carried as the underlying data: `SIGNIN_DAYS` and `ABSENT_DAYS` are the label
lists the source joins with `"/"` (empty list rendered `"NO SIGNIN"` /
`"N/A"`), `SIGNIN_DETAILS` is the triple
(`present_count`, `updated_required_days`, `pto_count`) the source renders as
an f-string, `PTO_DAYS` is the sorted date list whose `"%a"` labels the
source joins with `", "`, and `PRESENT` is the sorted list of distinct
present dates (the source sorts their `"%m/%d/%Y"` strings; within the
single-week windows at hand this is the numeric date order used here). -/
structure SignInData where
  NAME : String
  DEPT : String
  OFFICE : String
  STATUS : String
  SIGNIN_DAYS : List String
  ABSENT_DAYS : List String
  present_count : Int
  updated_required_days : Int
  pto_count : Nat
  PTO_DAYS : List Int
  USED_PTOs : Nat
  PRESENT : List Int
  REQUIRED : Int
deriving DecidableEq, Repr

/-- `process_employee_signin` (`src/signin.py` lines 355-427), line by line:
filter the sign-in rows to the employee's Tue/Wed/Thu events; deduplicate
their dates (`set`) for `PRESENT`; deduplicate and sort their weekday labels;
fetch and sort the PTO dates; and derive the counts, status and absent
days exactly as the source does. -/
def process_employee_signin (row : RosterRow) (signin_df : List SignInRow)
    (dr : List Int) (pto_calendar : List PTOData) : SignInData :=
  let required_days : Int := row.requiredDays
  let pdays := present_days signin_df row.fullName
  let present_dates := (pdays.map (fun r => dayOf r.inTime)).dedup
  let present_day_names :=
    sortByKey dayOrderIndex ((pdays.map (fun r => dayAbbr (dayOf r.inTime))).dedup)
  let pto_dates :=
    sortByKey (fun d => dayOrderIndex (dayAbbr (dayOf d)))
      (get_pto_dates pto_calendar row.jwName dr)
  let pto_count := pto_dates.length
  let updated_required_days : Int := max 0 (required_days - pto_count)
  let present_count : Int := min updated_required_days (pdays.length : Int)
  let status_ok : Bool := ! decide (present_count < updated_required_days)
  let absent_days := (["Tue", "Wed", "Thu"] : List String).filter
    (fun item => decide (item ∉ present_day_names))
  let absent_days := if status_ok then [] else absent_days
  { NAME := row.fullName
    DEPT := row.department
    OFFICE := row.office
    STATUS := if status_ok then "O" else "X"
    SIGNIN_DAYS := present_day_names
    ABSENT_DAYS := absent_days
    present_count := present_count
    updated_required_days := updated_required_days
    pto_count := pto_count
    PTO_DAYS := pto_dates
    USED_PTOs := pto_dates.length
    PRESENT := sortByKey (fun d => d.toNat) present_dates
    REQUIRED := required_days }

/-- `process_signin` (`src/signin.py` lines 430-457): map
`process_employee_signin` over the roster rows in order, then drop the rows
whose `REQUIRED` is 0. -/
def process_signin (signin_df : List SignInRow) (dr : List Int)
    (employees_df : List RosterRow) (pto_calendar : List PTOData) :
    List SignInData :=
  (employees_df.map
      (fun row => process_employee_signin row signin_df dr pto_calendar)).filter
    (fun row => decide (row.REQUIRED ≠ 0))

/-- The per-batch pipeline of `main` (`src/signin.py` lines 742-752):
`process_uploaded_files` (= `load_signin_data`, which stops on a multi-week
batch), then `pd.date_range(start_date, end_date)`, then `process_signin`. -/
def run_batch (uploaded_rows : List SignInRow) (employees_df : List RosterRow)
    (pto_calendar : List PTOData) : Option (List SignInData) :=
  match load_signin_data uploaded_rows with
  | none => none
  | some (signin_df, start_date, end_date) =>
      some (process_signin signin_df (date_range start_date end_date)
        employees_df pto_calendar)

/-! Helper lemmas about the embedded operations. -/

theorem listMin_mem (a : Int) (l : List Int) : listMin a l ∈ a :: l := by
  induction l generalizing a with
  | nil => simp [listMin]
  | cons b l ih =>
      have h := ih (min a b)
      rcases List.mem_cons.mp h with h | h
      · rcases min_choice a b with hm | hm <;>
          (simp only [listMin, List.foldl_cons] at *; rw [h, hm]; simp)
      · simp only [listMin, List.foldl_cons] at *
        exact List.mem_cons_of_mem _ (List.mem_cons_of_mem _ h)

theorem listMax_mem (a : Int) (l : List Int) : listMax a l ∈ a :: l := by
  induction l generalizing a with
  | nil => simp [listMax]
  | cons b l ih =>
      have h := ih (max a b)
      rcases List.mem_cons.mp h with h | h
      · rcases max_choice a b with hm | hm <;>
          (simp only [listMax, List.foldl_cons] at *; rw [h, hm]; simp)
      · simp only [listMax, List.foldl_cons] at *
        exact List.mem_cons_of_mem _ (List.mem_cons_of_mem _ h)

theorem listMin_le (a : Int) (l : List Int) : ∀ x ∈ a :: l, listMin a l ≤ x := by
  induction l generalizing a with
  | nil =>
      intro x hx
      rcases List.mem_cons.mp hx with rfl | h
      · exact le_refl x
      · simp at h
  | cons b l ih =>
      intro x hx
      have hstep : listMin (min a b) l ≤ min a b :=
        ih (min a b) (min a b) (List.mem_cons_self _ _)
      rcases List.mem_cons.mp hx with rfl | hx'
      · exact le_trans hstep (min_le_left _ _)
      · rcases List.mem_cons.mp hx' with rfl | h
        · exact le_trans hstep (min_le_right _ _)
        · exact ih (min a b) x (List.mem_cons_of_mem _ h)

theorem le_listMax (a : Int) (l : List Int) : ∀ x ∈ a :: l, x ≤ listMax a l := by
  induction l generalizing a with
  | nil =>
      intro x hx
      rcases List.mem_cons.mp hx with rfl | h
      · exact le_refl x
      · simp at h
  | cons b l ih =>
      intro x hx
      have hstep : max a b ≤ listMax (max a b) l :=
        ih (max a b) (max a b) (List.mem_cons_self _ _)
      rcases List.mem_cons.mp hx with rfl | hx'
      · exact le_trans (le_max_left _ _) hstep
      · rcases List.mem_cons.mp hx' with rfl | h
        · exact le_trans (le_max_right _ _) hstep
        · exact ih (max a b) x (List.mem_cons_of_mem _ h)

theorem listMin_le_listMax (a : Int) (l : List Int) : listMin a l ≤ listMax a l :=
  le_trans (listMin_le a l a (List.mem_cons_self _ _))
    (le_listMax a l a (List.mem_cons_self _ _))

theorem mem_insertByKey {α : Type} (key : α → Nat) (a x : α) (l : List α) :
    x ∈ insertByKey key a l ↔ x = a ∨ x ∈ l := by
  induction l with
  | nil => simp [insertByKey]
  | cons b l ih =>
      by_cases h : key a ≤ key b <;> simp [insertByKey, h, ih] <;> tauto

theorem mem_sortByKey {α : Type} (key : α → Nat) (x : α) (l : List α) :
    x ∈ sortByKey key l ↔ x ∈ l := by
  induction l with
  | nil => simp [sortByKey]
  | cons a l ih => simp [sortByKey, mem_insertByKey, ih]

theorem length_insertByKey {α : Type} (key : α → Nat) (a : α) (l : List α) :
    (insertByKey key a l).length = l.length + 1 := by
  induction l with
  | nil => simp [insertByKey]
  | cons b l ih =>
      by_cases h : key a ≤ key b <;> simp [insertByKey, h, ih]

theorem length_sortByKey {α : Type} (key : α → Nat) (l : List α) :
    (sortByKey key l).length = l.length := by
  induction l with
  | nil => simp [sortByKey]
  | cons a l ih => simp [sortByKey, length_insertByKey, ih]

theorem pairwise_insertByKey {α : Type} (key : α → Nat) (a : α) (l : List α)
    (h : List.Pairwise (fun x y => key x ≤ key y) l) :
    List.Pairwise (fun x y => key x ≤ key y) (insertByKey key a l) := by
  induction l with
  | nil => simp [insertByKey]
  | cons b l ih =>
      rcases List.pairwise_cons.mp h with ⟨hb, hl⟩
      by_cases hab : key a ≤ key b
      · rw [insertByKey, if_pos hab]
        refine List.pairwise_cons.mpr ⟨?_, h⟩
        intro x hx
        rcases List.mem_cons.mp hx with rfl | hx
        · exact hab
        · exact le_trans hab (hb x hx)
      · rw [insertByKey, if_neg hab]
        refine List.pairwise_cons.mpr ⟨?_, ih hl⟩
        intro x hx
        rcases (mem_insertByKey key a x l).mp hx with rfl | hx
        · exact le_of_not_le hab
        · exact hb x hx

theorem pairwise_sortByKey {α : Type} (key : α → Nat) (l : List α) :
    List.Pairwise (fun x y => key x ≤ key y) (sortByKey key l) := by
  induction l with
  | nil => simp [sortByKey]
  | cons a l ih => exact pairwise_insertByKey key a _ ih

/-- The date of the parsed-and-normalized leave date `ld * 1440 + 60` is
`ld` itself. -/
theorem dayOf_leave (ld : Int) : dayOf (ld * 1440 + 60) = ld := by
  simp only [dayOf]; omega

theorem mem_collectLeaveDates (dr : List Int) (lds : List Int) (d : Int) :
    d ∈ collectLeaveDates dr lds ↔
      ∃ ld ∈ lds, d = ld * 1440 + 60 ∧
        (weekdayOf ld = 1 ∨ weekdayOf ld = 2 ∨ weekdayOf ld = 3) ∧ d ∈ dr := by
  induction lds with
  | nil => simp [collectLeaveDates]
  | cons ld rest ih =>
      simp only [collectLeaveDates, dayOf_leave]
      by_cases h : (weekdayOf ld = 1 ∨ weekdayOf ld = 2 ∨ weekdayOf ld = 3) ∧
          ld * 1440 + 60 ∈ dr
      · rw [if_pos h]
        simp only [List.mem_cons, ih]
        constructor
        · rintro (rfl | ⟨ld', hld', rest'⟩)
          · exact ⟨ld, Or.inl rfl, rfl, h.1, h.2⟩
          · exact ⟨ld', Or.inr hld', rest'⟩
        · rintro ⟨ld', rfl | hld', hrest⟩
          · exact Or.inl hrest.1
          · exact Or.inr ⟨ld', hld', hrest⟩
      · rw [if_neg h]
        simp only [ih, List.mem_cons]
        constructor
        · rintro ⟨ld', hld', hrest⟩
          exact ⟨ld', Or.inr hld', hrest⟩
        · rintro ⟨ld', rfl | hld', hrest⟩
          · exact absurd ⟨hrest.2.1, hrest.1 ▸ hrest.2.2⟩ h
          · exact ⟨ld', hld', hrest⟩

theorem mem_get_pto_dates (cal : List PTOData) (nm : String) (dr : List Int)
    (d : Int) :
    d ∈ get_pto_dates cal nm dr ↔
      ∃ p ∈ cal, p.name = nm ∧ d ∈ collectLeaveDates dr p.leaveDates := by
  induction cal with
  | nil => simp [get_pto_dates]
  | cons p rest ih =>
      simp only [get_pto_dates, List.mem_append, ih, List.mem_cons]
      by_cases h : p.name = nm
      · rw [if_pos h]
        constructor
        · rintro (hd | ⟨q, hq, hqn, hqd⟩)
          · exact ⟨p, Or.inl rfl, h, hd⟩
          · exact ⟨q, Or.inr hq, hqn, hqd⟩
        · rintro ⟨q, rfl | hq, hqn, hqd⟩
          · exact Or.inl hqd
          · exact Or.inr ⟨q, hq, hqn, hqd⟩
      · rw [if_neg h]
        simp only [List.not_mem_nil, false_or]
        constructor
        · rintro ⟨q, hq, hqn, hqd⟩
          exact ⟨q, Or.inr hq, hqn, hqd⟩
        · rintro ⟨q, rfl | hq, hqn, hqd⟩
          · exact absurd hqn h
          · exact ⟨q, hq, hqn, hqd⟩

theorem length_collectLeaveDates (dr : List Int) (lds : List Int) :
    (collectLeaveDates dr lds).length =
      (lds.filter (fun ld => decide ((weekdayOf ld = 1 ∨ weekdayOf ld = 2 ∨
        weekdayOf ld = 3) ∧ ld * 1440 + 60 ∈ dr))).length := by
  induction lds with
  | nil => simp [collectLeaveDates]
  | cons ld rest ih =>
      simp only [collectLeaveDates, dayOf_leave, List.filter_cons]
      by_cases h : (weekdayOf ld = 1 ∨ weekdayOf ld = 2 ∨ weekdayOf ld = 3) ∧
          ld * 1440 + 60 ∈ dr
      · rw [if_pos h]
        simp [h, ih]
      · rw [if_neg h]
        simp [h, ih]

theorem length_get_pto_dates (cal : List PTOData) (nm : String) (dr : List Int) :
    (get_pto_dates cal nm dr).length =
      (((cal.filter (fun p => decide (p.name = nm))).map
        (fun p => (collectLeaveDates dr p.leaveDates).length)).sum) := by
  induction cal with
  | nil => simp [get_pto_dates]
  | cons p rest ih =>
      simp only [get_pto_dates, List.length_append, ih, List.filter_cons]
      by_cases h : p.name = nm
      · simp [h]
      · simp [h]

/-- Membership in the 7-day `date_range` of an hour-1-normalized week start,
for hour-1-normalized timestamps: exactly the dates of the window,
inclusive. -/
theorem mem_date_range_hour1 (w ld : Int) :
    ld * 1440 + 60 ∈ date_range (w * 1440 + 60) (w * 1440 + 60 + 6 * 1440) ↔
      w ≤ ld ∧ ld ≤ w + 6 := by
  have h6 : (((w * 1440 + 60 + 6 * 1440 - (w * 1440 + 60)) / 1440)).toNat + 1 = 7 := by
    have h : w * 1440 + 60 + 6 * 1440 - (w * 1440 + 60) = 8640 := by ring
    rw [h]
    decide
  unfold date_range
  rw [h6]
  constructor
  · intro hmem
    obtain ⟨k, hk, he⟩ := List.mem_map.mp hmem
    rw [List.mem_range] at hk
    omega
  · rintro ⟨h1, h2⟩
    exact List.mem_map.mpr ⟨(ld - w).toNat, List.mem_range.mpr (by omega), by omega⟩

/-! Field-extraction lemmas for `process_employee_signin`. -/

theorem pes_REQUIRED (row : RosterRow) (sdf : List SignInRow) (dr : List Int)
    (cal : List PTOData) :
    (process_employee_signin row sdf dr cal).REQUIRED = row.requiredDays := rfl

theorem pes_pto_count (row : RosterRow) (sdf : List SignInRow) (dr : List Int)
    (cal : List PTOData) :
    (process_employee_signin row sdf dr cal).pto_count =
      (get_pto_dates cal row.jwName dr).length := by
  simp [process_employee_signin, length_sortByKey]

theorem pes_updated (row : RosterRow) (sdf : List SignInRow) (dr : List Int)
    (cal : List PTOData) :
    (process_employee_signin row sdf dr cal).updated_required_days =
      max 0 (row.requiredDays - (get_pto_dates cal row.jwName dr).length) := by
  simp [process_employee_signin, length_sortByKey]

theorem pes_present_count (row : RosterRow) (sdf : List SignInRow) (dr : List Int)
    (cal : List PTOData) :
    (process_employee_signin row sdf dr cal).present_count =
      min (process_employee_signin row sdf dr cal).updated_required_days
        ((present_days sdf row.fullName).length : Int) := by
  simp [process_employee_signin, length_sortByKey]

theorem pes_PTO_DAYS (row : RosterRow) (sdf : List SignInRow) (dr : List Int)
    (cal : List PTOData) :
    (process_employee_signin row sdf dr cal).PTO_DAYS =
      sortByKey (fun d => dayOrderIndex (dayAbbr (dayOf d)))
        (get_pto_dates cal row.jwName dr) := rfl

theorem pes_STATUS (row : RosterRow) (sdf : List SignInRow) (dr : List Int)
    (cal : List PTOData) :
    (process_employee_signin row sdf dr cal).STATUS =
      (if (process_employee_signin row sdf dr cal).present_count <
          (process_employee_signin row sdf dr cal).updated_required_days
        then "X" else "O") := by
  simp only [process_employee_signin]
  by_cases h : (min (max 0 (row.requiredDays -
      ((sortByKey (fun d => dayOrderIndex (dayAbbr (dayOf d)))
        (get_pto_dates cal row.jwName dr)).length : Int)))
      ((present_days sdf row.fullName).length : Int)) <
      max 0 (row.requiredDays -
        ((sortByKey (fun d => dayOrderIndex (dayAbbr (dayOf d)))
          (get_pto_dates cal row.jwName dr)).length : Int)) <;>
    simp [h]

theorem pes_SIGNIN_DAYS (row : RosterRow) (sdf : List SignInRow) (dr : List Int)
    (cal : List PTOData) :
    (process_employee_signin row sdf dr cal).SIGNIN_DAYS =
      sortByKey dayOrderIndex
        (((present_days sdf row.fullName).map
          (fun r => dayAbbr (dayOf r.inTime))).dedup) := rfl

theorem cdr_more7 (ts : List Int) :
    (calculate_date_range ts).more_than_7_days =
      decide (7 < ((calculate_date_range ts).max_date -
        (calculate_date_range ts).min_date) / 1440) := rfl

theorem pes_ABSENT_DAYS (row : RosterRow) (sdf : List SignInRow) (dr : List Int)
    (cal : List PTOData) :
    (process_employee_signin row sdf dr cal).ABSENT_DAYS =
      (if (process_employee_signin row sdf dr cal).present_count <
          (process_employee_signin row sdf dr cal).updated_required_days
        then (["Tue", "Wed", "Thu"] : List String).filter
          (fun item => decide (item ∉
            (process_employee_signin row sdf dr cal).SIGNIN_DAYS))
        else []) := by
  simp only [process_employee_signin]
  by_cases h : (min (max 0 (row.requiredDays -
      ((sortByKey (fun d => dayOrderIndex (dayAbbr (dayOf d)))
        (get_pto_dates cal row.jwName dr)).length : Int)))
      ((present_days sdf row.fullName).length : Int)) <
      max 0 (row.requiredDays -
        ((sortByKey (fun d => dayOrderIndex (dayAbbr (dayOf d)))
          (get_pto_dates cal row.jwName dr)).length : Int)) <;>
    simp [h]

/-! Concrete fixtures.  Day numbers count from 2024-01-01 (a Monday):
day 153 = 2024-06-02 (Sun), day 159 = 2024-06-08 (Sat), day 160 = 2024-06-09
(Sun), day 162 = 2024-06-11 (Tue), day 164 = 2024-06-13 (Thu), day 167 =
2024-06-16 (Sun). -/

/-- The week window 2024-06-09 .. 2024-06-15, hour-1 normalized. -/
def exWeek : List Int := date_range (160 * 1440 + 60) (160 * 1440 + 60 + 6 * 1440)

/-- A roster row with 3 required days. -/
def exRowSmith : RosterRow :=
  ⟨"A. Smith", "Smith, A", "Engineering", "Brooklyn, NY", 3⟩

/-- Two sign-in events by the same employee on the same Tuesday
(2024-06-11, 09:00 and 17:00). -/
def exTwoTue : List SignInRow :=
  [⟨"A. Smith", 162 * 1440 + 540⟩, ⟨"A. Smith", 162 * 1440 + 1020⟩]

/-- A single sign-in on Tuesday 2024-06-11 09:00. -/
def exTueOnly : List SignInRow := [⟨"A. Smith", 162 * 1440 + 540⟩]

/-- A roster row with 1 required day. -/
def exRowPto1 : RosterRow :=
  ⟨"A. Smith", "Smith, A", "Engineering", "Brooklyn, NY", 1⟩

/-- A PTO calendar with one qualifying leave date (Tuesday 2024-06-11). -/
def exCalTue : List PTOData := [⟨"Smith, A", [162]⟩]

/-- A roster row with 0 required days (exempt). -/
def exRowExempt : RosterRow := ⟨"B. Jones", "Jones, B", "Design", "Denver, CO", 0⟩

/-- A batch spanning 7 days and 1 hour (2024-01-01 00:00 to 2024-01-08
01:00). -/
def exSpan7d1h : List SignInRow := [⟨"A. Smith", 0⟩, ⟨"A. Smith", 7 * 1440 + 60⟩]

/-- A batch with one Saturday (2024-06-08 10:00) and one Sunday (2024-06-09
10:00) event: one day apart, but in two different Sunday-to-Saturday
weeks. -/
def exSatSun : List SignInRow :=
  [⟨"A. Smith", 159 * 1440 + 600⟩, ⟨"A. Smith", 160 * 1440 + 600⟩]

/-- A lone sign-in timestamp on Sunday 2024-06-09 at 09:00. -/
def exSunTs : Int := 160 * 1440 + 540

/-- A PTO calendar listing a Thursday before a Tuesday (2024-06-13 then
2024-06-11). -/
def exCalThuTue : List PTOData := [⟨"Smith, A", [164, 162]⟩]

/-- A PTO calendar in which the same Tuesday leave date appears twice in one
record. -/
def exDupCal : List PTOData := [⟨"Smith, A", [162, 162]⟩]

/-! The claims. -/

/-- Claim C1, counterexample: with two sign-in events on the same Tuesday
and `required_days = 3`, the emitted record has `present_count = 2`
(the source counts sign-in events via `len(present_days)`), while the
number of distinct present calendar dates (`PRESENT.length`) is 1, so
`present_count ≠ min(adjusted_requirement, distinct_present_date_count)`:
the claim's deduplicated-count equation is false. -/
theorem c1_counterexample :
    (process_employee_signin exRowSmith exTwoTue exWeek []).updated_required_days = 3 ∧
    (process_employee_signin exRowSmith exTwoTue exWeek []).PRESENT.length = 1 ∧
    (process_employee_signin exRowSmith exTwoTue exWeek []).present_count = 2 ∧
    (process_employee_signin exRowSmith exTwoTue exWeek []).present_count ≠
      min (process_employee_signin exRowSmith exTwoTue exWeek []).updated_required_days
        ((process_employee_signin exRowSmith exTwoTue exWeek []).PRESENT.length : Int) := by
  decide

/-- Claim C1 (amended): for every roster entry, the emitted record satisfies
`adjusted_requirement = max(0, required_days - pto_count)` and
`present_count = min(adjusted_requirement, number of Tue/Wed/Thu sign-in
EVENTS of that employee)`; multiple sign-in events on the same calendar date
are NOT deduplicated for `present_count` (each event counts), even though
the record's `PRESENT` date list is deduplicated. -/
theorem c1_amended (row : RosterRow) (sdf : List SignInRow) (dr : List Int)
    (cal : List PTOData) :
    (process_employee_signin row sdf dr cal).updated_required_days =
      max 0 (row.requiredDays -
        ((process_employee_signin row sdf dr cal).pto_count : Int)) ∧
    (process_employee_signin row sdf dr cal).present_count =
      min (process_employee_signin row sdf dr cal).updated_required_days
        ((present_days sdf row.fullName).length : Int) :=
  ⟨by rw [pes_updated, pes_pto_count], pes_present_count row sdf dr cal⟩

/-- Claim C2: the emitted status is `"O"` (PASS) or `"X"` (FAIL) and nothing
else; it is `"O"` exactly when `present_count >= adjusted_requirement`; and
an employee whose adjusted requirement is 0 always gets `"O"`, even with
zero sign-ins. -/
theorem c2_status (row : RosterRow) (sdf : List SignInRow) (dr : List Int)
    (cal : List PTOData) :
    ((process_employee_signin row sdf dr cal).STATUS = "O" ∨
      (process_employee_signin row sdf dr cal).STATUS = "X") ∧
    ((process_employee_signin row sdf dr cal).STATUS = "O" ↔
      (process_employee_signin row sdf dr cal).updated_required_days ≤
        (process_employee_signin row sdf dr cal).present_count) ∧
    ((process_employee_signin row sdf dr cal).updated_required_days = 0 →
      (process_employee_signin row sdf dr cal).STATUS = "O") := by
  have hs := pes_STATUS row sdf dr cal
  by_cases h : (process_employee_signin row sdf dr cal).present_count <
      (process_employee_signin row sdf dr cal).updated_required_days
  · rw [if_pos h] at hs
    refine ⟨Or.inr hs, ⟨fun hO => ?_, fun hle => absurd hle (not_le.mpr h)⟩, fun h0 => ?_⟩
    · rw [hs] at hO
      exact absurd hO (by decide)
    · have hp := pes_present_count row sdf dr cal
      have hl : (0 : Int) ≤ ((present_days sdf row.fullName).length : Int) :=
        Int.natCast_nonneg _
      rw [h0] at hp h
      omega
  · rw [if_neg h] at hs
    exact ⟨Or.inl hs, ⟨fun _ => not_lt.mp h, fun _ => hs⟩, fun _ => hs⟩

/-- Claim C2 witness: an employee with `required_days = 1` fully offset by
one qualifying PTO day (adjusted requirement 0) passes with zero
sign-ins. -/
theorem c2_witness : (process_employee_signin exRowPto1 [] exWeek exCalTue).STATUS = "O" :=
  (c2_status exRowPto1 [] exWeek exCalTue).2.2 (by decide)

/-- Claim C5, counterexample: for the batch whose only sign-in timestamp is
Sunday 2024-06-09 09:00, the resolved window start is NOT 2024-06-16
(day 167): the claim's resolved start is wrong. -/
theorem c5_counterexample :
    (calculate_date_range [exSunTs]).start_date ≠ 167 * 1440 + 60 := by
  decide

/-- Claim C5 (amended): for a batch whose only sign-in timestamp falls on
Sunday 2024-06-09, the resolver does not anchor the window to the prior
Sunday 2024-06-02 (day 153); it resolves the window to start on 2024-06-09
itself (day 160, at 01:00) and end on 2024-06-15 (day 166, at 01:00). -/
theorem c5_amended :
    (calculate_date_range [exSunTs]).start_date = 160 * 1440 + 60 ∧
    (calculate_date_range [exSunTs]).end_date = 166 * 1440 + 60 ∧
    (calculate_date_range [exSunTs]).start_date ≠ 153 * 1440 + 60 := by
  decide

/-- Claim C6: for every PTO calendar, target name and hour-1-normalized week
window `[start, start + 6 days]`, a timestamp is in the PTO Matcher's output
iff it is the parsed form of a leave date of some calendar record whose
employee name equals the target name (case-sensitive string equality, every
record scanned), whose weekday is Tuesday (1), Wednesday (2) or Thursday
(3), and which lies within `[start, end]` inclusive; all other dates are
silently dropped. -/
theorem c6_pto_matcher (cal : List PTOData) (nm : String) (s d : Int) :
    d ∈ get_pto_dates cal nm
        (date_range (s * 1440 + 60) (s * 1440 + 60 + 6 * 1440)) ↔
      ∃ p ∈ cal, p.name = nm ∧ ∃ ld ∈ p.leaveDates, d = ld * 1440 + 60 ∧
        (weekdayOf ld = 1 ∨ weekdayOf ld = 2 ∨ weekdayOf ld = 3) ∧
        s * 1440 + 60 ≤ d ∧ d ≤ s * 1440 + 60 + 6 * 1440 := by
  rw [mem_get_pto_dates]
  constructor
  · rintro ⟨p, hp, hnm, hd⟩
    rw [mem_collectLeaveDates] at hd
    obtain ⟨ld, hld, rfl, hw, hmem⟩ := hd
    rw [mem_date_range_hour1] at hmem
    exact ⟨p, hp, hnm, ld, hld, rfl, hw, by omega, by omega⟩
  · rintro ⟨p, hp, hnm, ld, hld, rfl, hw, hlo, hhi⟩
    refine ⟨p, hp, hnm, ?_⟩
    rw [mem_collectLeaveDates]
    exact ⟨ld, hld, rfl, hw,
      (mem_date_range_hour1 s ld).mpr ⟨by omega, by omega⟩⟩

/-- Claim C10: PTO leave dates are never deduplicated.  In general the
matcher's output length is the sum, over the records whose name matches, of
the number of qualifying leave-date OCCURRENCES (a list filter, keeping
duplicates); concretely, a Tuesday leave date listed twice in one record
yields `pto_count = 2` and reduces the adjusted requirement by 2. -/
theorem c10_pto_duplicates :
    (∀ (cal : List PTOData) (nm : String) (dr : List Int),
      (get_pto_dates cal nm dr).length =
        ((cal.filter (fun p => decide (p.name = nm))).map
          (fun p => (p.leaveDates.filter (fun ld => decide ((weekdayOf ld = 1 ∨
            weekdayOf ld = 2 ∨ weekdayOf ld = 3) ∧
              ld * 1440 + 60 ∈ dr))).length)).sum) ∧
    (process_employee_signin exRowSmith [] exWeek exDupCal).pto_count = 2 ∧
    (process_employee_signin exRowSmith [] exWeek exDupCal).updated_required_days =
      exRowSmith.requiredDays - 2 := by
  refine ⟨fun cal nm dr => ?_, by decide, by decide⟩
  rw [length_get_pto_dates]
  simp only [length_collectLeaveDates]

/-- Rejection of a batch by `load_signin_data` is exactly the
`more_than_7_days` flag of its date range. -/
theorem load_signin_data_eq_none (rows : List SignInRow) :
    load_signin_data rows = none ↔
      (calculate_date_range (rows.map (·.inTime))).more_than_7_days = true := by
  unfold load_signin_data
  by_cases h : (calculate_date_range (rows.map (·.inTime))).more_than_7_days
  · simp [h]
  · simp [h]

/-- The pipeline yields no records exactly when `load_signin_data`
rejects. -/
theorem run_batch_eq_none (rows : List SignInRow) (emps : List RosterRow)
    (cal : List PTOData) :
    run_batch rows emps cal = none ↔ load_signin_data rows = none := by
  unfold run_batch
  cases hl : load_signin_data rows with
  | none => simp
  | some v =>
      obtain ⟨a, b, c⟩ := v
      simp

/-- Claim C3, counterexample: a batch spanning 7 days and 1 hour exceeds 7
days (max - min > 7 days in minutes), yet the batch is NOT rejected
(`load_signin_data` succeeds and the pipeline aggregates records): the
source's `(max_date - min_date).days > 7` check floors the difference to
whole days. -/
theorem c3_counterexample :
    7 * 1440 < (calculate_date_range (exSpan7d1h.map (·.inTime))).max_date -
        (calculate_date_range (exSpan7d1h.map (·.inTime))).min_date ∧
    load_signin_data exSpan7d1h ≠ none ∧
    run_batch exSpan7d1h [exRowSmith] [] ≠ none := by
  decide

/-- Claim C3 (amended): the batch is rejected — the pipeline produces no
records at all — exactly when the difference between the batch's maximum and
minimum timestamps is at least 8 days (i.e. its whole-day component exceeds
7); differences above 7 but below 8 days are accepted. -/
theorem c3_amended (r0 : SignInRow) (rest : List SignInRow)
    (emps : List RosterRow) (cal : List PTOData) :
    run_batch (r0 :: rest) emps cal = none ↔
      8 * 1440 ≤ (calculate_date_range ((r0 :: rest).map (·.inTime))).max_date -
        (calculate_date_range ((r0 :: rest).map (·.inTime))).min_date := by
  rw [run_batch_eq_none, load_signin_data_eq_none, cdr_more7, decide_eq_true_eq]
  constructor
  · intro h
    omega
  · intro h
    omega

/-- Claim C3 witness: the batch 2024-06-01 .. 2024-06-10 of the spec's
example (here: minutes 0 and 9 days later) spans at least 8 whole days and
is rejected with no records. -/
theorem c3_witness :
    run_batch [⟨"A. Smith", 0⟩, ⟨"A. Smith", 9 * 1440⟩] [exRowSmith] [] = none :=
  (c3_amended ⟨"A. Smith", 0⟩ [⟨"A. Smith", 9 * 1440⟩] [exRowSmith] []).mpr (by decide)

/-- Batch Processor as a filter-then-map (helper for claim C4): when every
roster entry has a nonnegative requirement, dropping emitted records with
`REQUIRED = 0` is the same as emitting exactly one record, in roster order,
for each entry with a positive requirement. -/
theorem process_signin_eq_filter_map (sdf : List SignInRow) (dr : List Int)
    (cal : List PTOData) :
    ∀ (emps : List RosterRow), (∀ e ∈ emps, 0 ≤ e.requiredDays) →
      process_signin sdf dr emps cal =
        (emps.filter (fun e => decide (0 < e.requiredDays))).map
          (fun row => process_employee_signin row sdf dr cal) := by
  intro emps
  induction emps with
  | nil => intro _; rfl
  | cons e es ih =>
      intro h
      have he := h e (List.mem_cons_self _ _)
      have hes : ∀ x ∈ es, 0 ≤ x.requiredDays :=
        fun x hx => h x (List.mem_cons_of_mem _ hx)
      unfold process_signin at *
      by_cases hq : e.requiredDays = 0
      · have h1 : decide ((process_employee_signin e sdf dr cal).REQUIRED ≠ 0) = false := by
          simp [pes_REQUIRED, hq]
        have h2 : decide (0 < e.requiredDays) = false := by simp [hq]
        simp only [List.map_cons, List.filter_cons, h1, h2, Bool.false_eq_true, if_false]
        exact ih hes
      · have h1 : decide ((process_employee_signin e sdf dr cal).REQUIRED ≠ 0) = true := by
          simp [pes_REQUIRED, hq]
        have h2 : decide (0 < e.requiredDays) = true := by
          simp [lt_of_le_of_ne he (Ne.symm hq)]
        simp only [List.map_cons, List.filter_cons, h1, h2, if_true]
        rw [ih hes]

/-- Claim C4: when every roster requirement is nonnegative (the roster
contract), the Batch Processor emits exactly one record per roster entry
with `required_days > 0`, in roster iteration order, and no record for
entries with `required_days = 0`; in particular no positive-requirement
entry is dropped for any other reason (the filter reads the raw `REQUIRED`,
not the PTO-adjusted requirement). -/
theorem c4_batch (sdf : List SignInRow) (dr : List Int) (emps : List RosterRow)
    (cal : List PTOData) (h : ∀ e ∈ emps, 0 ≤ e.requiredDays) :
    process_signin sdf dr emps cal =
      (emps.filter (fun e => decide (0 < e.requiredDays))).map
        (fun row => process_employee_signin row sdf dr cal) :=
  process_signin_eq_filter_map sdf dr cal emps h

/-- Claim C4 witness: an exempt entry (0 required days) produces no record;
an entry with 3 required days produces exactly its one record, even when its
PTO-adjusted requirement would be 0. -/
theorem c4_witness :
    process_signin exTueOnly exWeek [exRowExempt, exRowSmith] [] =
      (([exRowExempt, exRowSmith].filter (fun e => decide (0 < e.requiredDays))).map
        (fun row => process_employee_signin row exTueOnly exWeek [])) :=
  c4_batch exTueOnly exWeek [exRowExempt, exRowSmith] [] (by decide)

/-- Claim C7, counterexample: the batch with one Saturday 2024-06-08 and one
Sunday 2024-06-09 event is accepted (not rejected as multi-week), yet its
Sunday timestamp lies after the resolved window's end (the window is the
Sunday-to-Saturday week of the minimum timestamp, 2024-06-02 .. 2024-06-08),
so an accepted batch can span two Sunday-to-Saturday weeks with a timestamp
outside the resolved window. -/
theorem c7_counterexample :
    load_signin_data exSatSun ≠ none ∧
    (⟨"A. Smith", 160 * 1440 + 600⟩ : SignInRow) ∈ exSatSun ∧
    (calculate_date_range (exSatSun.map (·.inTime))).end_date < 160 * 1440 + 600 := by
  decide

/-- Claim C7 (amended): the resolver anchors the window to the
Sunday-to-Saturday week containing the MINIMUM timestamp.  Hence whenever
all of a batch's timestamps fall in one Sunday-to-Saturday week (a Sunday
day number `s` through `s + 6`), the batch is accepted and the resolved
window is exactly that week — so all its timestamps belong to the window.
Acceptance alone does not imply this (see the counterexample): the check
only bounds the whole-day span by 7, which still admits two-week batches. -/
theorem c7_amended (r0 : SignInRow) (rest : List SignInRow) (s : Int)
    (hs : weekdayOf s = 6)
    (hin : ∀ r ∈ r0 :: rest, s ≤ dayOf r.inTime ∧ dayOf r.inTime ≤ s + 6) :
    load_signin_data (r0 :: rest) =
      some (r0 :: rest, s * 1440 + 60, s * 1440 + 60 + 6 * 1440) := by
  have hbound : ∀ x ∈ r0.inTime :: rest.map (·.inTime),
      s ≤ dayOf x ∧ dayOf x ≤ s + 6 := by
    intro x hx
    rcases List.mem_cons.mp hx with rfl | hx'
    · exact hin r0 (List.mem_cons_self _ _)
    · obtain ⟨r, hr, rfl⟩ := List.mem_map.mp hx'
      exact hin r (List.mem_cons_of_mem _ hr)
  have hmB := hbound _ (listMin_mem r0.inTime (rest.map (·.inTime)))
  have hMB := hbound _ (listMax_mem r0.inTime (rest.map (·.inTime)))
  simp only [dayOf] at hmB hMB
  simp only [weekdayOf] at hs
  unfold load_signin_data calculate_date_range
  simp only [List.map_cons, List.headD_cons, List.tail_cons]
  have hnot7 : ¬ (7 < (listMax r0.inTime (rest.map (·.inTime)) -
      listMin r0.inTime (rest.map (·.inTime))) / 1440) := by
    omega
  rw [decide_eq_false hnot7]
  simp only [Bool.false_eq_true, if_false]
  have hstart : (if weekdayOf (dayOf (listMin r0.inTime (rest.map (·.inTime)))) = 6
      then replaceHour1 (listMin r0.inTime (rest.map (·.inTime)) -
        (weekdayOf (dayOf (listMin r0.inTime (rest.map (·.inTime)))) + 1) * 1440) + 7 * 1440
      else replaceHour1 (listMin r0.inTime (rest.map (·.inTime)) -
        (weekdayOf (dayOf (listMin r0.inTime (rest.map (·.inTime)))) + 1) * 1440)) =
      s * 1440 + 60 := by
    simp only [weekdayOf, dayOf, replaceHour1]
    by_cases hw : listMin r0.inTime (rest.map (·.inTime)) / 1440 % 7 = 6
    · rw [if_pos hw]; omega
    · rw [if_neg hw]; omega
  rw [hstart]

/-- Claim C7 witness: a single-Tuesday batch within the week of Sunday
2024-06-09 (day 160) is accepted and resolves to exactly that week. -/
theorem c7_witness :
    load_signin_data exTueOnly =
      some (exTueOnly, 160 * 1440 + 60, 160 * 1440 + 60 + 6 * 1440) :=
  c7_amended ⟨"A. Smith", 162 * 1440 + 540⟩ [] 160 (by decide) (by decide)

/-- Claim C8: in every record emitted by the Batch Processor, the PTO day
list is sorted by the weekday index of `day_order = [Tue, Wed, Thu]`:
Tuesday entries come before Wednesday entries, which come before Thursday
entries. -/
theorem c8_pto_order (sdf : List SignInRow) (dr : List Int)
    (emps : List RosterRow) (cal : List PTOData) (rec : SignInData)
    (h : rec ∈ process_signin sdf dr emps cal) :
    List.Pairwise (fun a b => dayOrderIndex (dayAbbr (dayOf a)) ≤
      dayOrderIndex (dayAbbr (dayOf b))) rec.PTO_DAYS := by
  unfold process_signin at h
  obtain ⟨row, _, rfl⟩ := List.mem_map.mp (List.mem_of_mem_filter h)
  rw [pes_PTO_DAYS]
  exact pairwise_sortByKey _ _

/-- Claim C8 witness: with a calendar listing a qualifying Thursday before a
qualifying Tuesday, the single emitted record's PTO days come out
Tue-before-Thu sorted. -/
theorem c8_witness :
    List.Pairwise (fun a b => dayOrderIndex (dayAbbr (dayOf a)) ≤
      dayOrderIndex (dayAbbr (dayOf b)))
      ((process_signin exTueOnly exWeek [exRowSmith] exCalThuTue).headD
        (process_employee_signin exRowSmith [] [] [])).PTO_DAYS :=
  c8_pto_order exTueOnly exWeek [exRowSmith] exCalThuTue _ (by decide)

/-- Claim C9: in every emitted record, if the status is FAIL (`"X"`) the
absent days are `[Tue, Wed, Thu]` minus the weekday labels of the employee's
Tue/Wed/Thu sign-in events, and if the status is PASS (`"O"`) the absent
days are empty — even when the employee did not sign in on some core
weekday. -/
theorem c9_absent (row : RosterRow) (sdf : List SignInRow) (dr : List Int)
    (cal : List PTOData) :
    ((process_employee_signin row sdf dr cal).STATUS = "X" →
      (process_employee_signin row sdf dr cal).ABSENT_DAYS =
        (["Tue", "Wed", "Thu"] : List String).filter
          (fun item => decide (item ∉ (present_days sdf row.fullName).map
            (fun r => dayAbbr (dayOf r.inTime))))) ∧
    ((process_employee_signin row sdf dr cal).STATUS = "O" →
      (process_employee_signin row sdf dr cal).ABSENT_DAYS = []) := by
  have hs := pes_STATUS row sdf dr cal
  have ha := pes_ABSENT_DAYS row sdf dr cal
  by_cases h : (process_employee_signin row sdf dr cal).present_count <
      (process_employee_signin row sdf dr cal).updated_required_days
  · rw [if_pos h] at hs ha
    constructor
    · intro _
      rw [ha]
      apply List.filter_congr
      intro x _
      rw [pes_SIGNIN_DAYS, decide_eq_decide]
      exact not_congr ((mem_sortByKey _ _ _).trans List.mem_dedup)
    · intro hO
      rw [hs] at hO
      exact absurd hO (by decide)
  · rw [if_neg h] at hs ha
    constructor
    · intro hX
      rw [hs] at hX
      exact absurd hX (by decide)
    · intro _
      exact ha

/-- Claim C9 witness: required 3, one Tuesday sign-in, no PTO: the employee
fails and the absent days are exactly `[Tue, Wed, Thu]` minus the signed-in
labels (here `[Wed, Thu]`). -/
theorem c9_witness :
    (process_employee_signin exRowSmith exTueOnly exWeek []).ABSENT_DAYS =
      (["Tue", "Wed", "Thu"] : List String).filter
        (fun item => decide (item ∉ (present_days exTueOnly exRowSmith.fullName).map
          (fun r => dayAbbr (dayOf r.inTime)))) :=
  (c9_absent exRowSmith exTueOnly exWeek []).1 (by decide)

end Madwell
